import Mathlib

/-
Verification of the seen-set deduplication and classify-then-delete pipeline
of the simple-email-filter repository.

The embedding models the two pipeline variants:
  * process_junk_mail        (lambda_function.py, polling variant)
  * process_webhook_notification and lambda_handler (webhook_handler.py)

External collaborators (Microsoft Graph, the OpenAI chat endpoint, DynamoDB)
are modelled as oracles passed in as parameters:
  * folderFound : whether a folder named "junk email"/"junk" exists;
  * msgs        : the message list returned by the folder fetch;
  * prev        : the seen-set loaded from the key-value store (a load
                  failure is the special case prev = the empty set);
  * the classifier response (per batch for the polling variant, per
    message for the webhook variant);
  * delOk id    : whether the DELETE call for a message id returns HTTP 204.

The run result records, besides the returned counts, the observable effect
trace the claims talk about: the batch submitted to the classifier, the
ordered list of deletion attempts issued, and the seen-set value passed to
the store write (none when the code returns before reaching the write).
-/

/-- One mailbox item as prepared by the source: id, sender address, subject,
body preview and received timestamp. -/
structure Email where
  id : String
  sender : String
  subject : String
  preview : String
  received : String
deriving DecidableEq

def mkEmail (i : String) : Email := ⟨i, "", "", "", ""⟩

/-- The set of ids collected by the source loop
`for m in msgs: current_ids.add(m.get("id"))`. -/
def idsOf (msgs : List Email) : Finset String :=
  msgs.foldl (fun s e => insert e.id s) ∅

/-- Outcome of the polling classifier call in get_deletion_decisions:
`err` models any exception raised inside its try block — an OpenAI API
error, or json.loads raising because the response text is empty,
unparsable or otherwise malformed; `indices xs` models a response text
that parses as a JSON array of integers (a JSON boolean element also
lands here as 0 or 1, because a Python bool IS an int and indexes a
list).  A response parsing to any other valid JSON value is returned
unchanged to the deletion loop of the caller; that path is embedded by
poll_delete_entry and poll_delete_py below and examined under C2: it can
issue real deletions before a TypeError aborts the run, so it is NOT
fail-safe. -/
inductive ClassifierResult
  | err
  | indices (xs : List Int)
deriving DecidableEq

/-- lambda_function.get_deletion_decisions: returns the parsed index list,
or the empty list when anything in the try block raises. -/
def get_deletion_decisions : ClassifierResult → List Int
  | .err => []
  | .indices xs => xs

/-- The CPython whitespace predicate behind str.strip with no argument:
code points 9-13 and 28-32, NEL 133, NBSP 160, Ogham space 5760, the
range 8192-8202, line and paragraph separators 8232 and 8233, the narrow
no-break space 8239, the mathematical space 8287, and the ideographic
space 12288. -/
def py_isspace (c : Char) : Bool :=
  decide ((9 ≤ c.toNat ∧ c.toNat ≤ 13) ∨ (28 ≤ c.toNat ∧ c.toNat ≤ 32) ∨
    c.toNat = 133 ∨ c.toNat = 160 ∨ c.toNat = 5760 ∨
    (8192 ≤ c.toNat ∧ c.toNat ≤ 8202) ∨ c.toNat = 8232 ∨ c.toNat = 8233 ∨
    c.toNat = 8239 ∨ c.toNat = 8287 ∨ c.toNat = 12288)

/-- The character list of a string with leading and trailing whitespace
removed — the Python str.strip applied by get_deletion_decision, with the
CPython whitespace set py_isspace. -/
def stripped (content : String) : List Char :=
  ((content.data.dropWhile py_isspace).reverse.dropWhile py_isspace).reverse

/-- webhook_handler.get_deletion_decision: the raw response content is
`none` on an API exception (including a None message content, coalesced by
`or ""`), otherwise the content string.  The code strips it, defaults to
keep on empty (`raw[0] if raw else "0"`), and otherwise compares the FIRST
character of the stripped text with the character 1. -/
def get_deletion_decision (resp : Option String) : Bool :=
  match resp with
  | none => false
  | some content =>
    match stripped content with
    | [] => false
    | c :: _ => c == '1'

/-- The deletion loop of process_junk_mail (lambda_function.py lines
213-231): for each classifier index, skip it when negative or at least the
batch length, otherwise issue a DELETE for the indexed email and count it
when the response status is 204.  Returns the ordered attempt list and the
deleted count, threaded through the accumulator arguments. -/
def poll_delete_go (batch : List Email) (delOk : String → Bool) :
    List Int → List String → Nat → List String × Nat
  | [], att, del => (att, del)
  | idx :: rest, att, del =>
    if idx < 0 ∨ (batch.length : Int) ≤ idx then
      poll_delete_go batch delOk rest att del
    else
      match batch.get? idx.toNat with
      | some e =>
        if delOk e.id then poll_delete_go batch delOk rest (att ++ [e.id]) (del + 1)
        else poll_delete_go batch delOk rest (att ++ [e.id]) del
      | none => poll_delete_go batch delOk rest att del

/-- The guard of the deletion loop as a Boolean predicate on an index. -/
def idx_in_range (n : Nat) (i : Int) : Bool :=
  decide (0 ≤ i) && decide (i < (n : Int))

/-- One element of a decoded JSON array as the polling deletion loop sees
it.  pyInt covers JSON integers and booleans (a Python bool is an int:
True behaves as the index 1, False as 0).  pyFloat covers non-integer
JSON numbers, which pass both range guards unharmed but raise a TypeError
when used as a list index.  pyOther covers strings, null, arrays and
objects, whose very comparison `idx < 0` raises a TypeError.  (A JSON
string response iterates as one-character strings and an object as its
string keys, so both behave as an array of pyOther elements.) -/
inductive PyVal
  | pyInt (n : Int)
  | pyFloat (q : ℚ)
  | pyOther
deriving DecidableEq

/-- A decoded JSON document handed to the deletion loop: scalar is a
non-iterable value (number, boolean, null) over which the for statement
raises a TypeError at once; arr is an iterable one. -/
inductive PyJson
  | scalar
  | arr (xs : List PyVal)
deriving DecidableEq

/-- Result of the deletion loop under full Python semantics: the ordered
deletion attempts, the deleted count, and whether a TypeError escaped the
loop — in which case process_junk_mail aborts, the entry point answers
500 with an error body, and the seen-set write is skipped, but the
deletions already issued remain performed. -/
structure PyLoopResult where
  deleteAttempts : List String
  deleted : Nat
  raised : Bool
deriving DecidableEq

/-- The deletion loop of process_junk_mail over arbitrary decoded-JSON
elements (lambda_function.py lines 213-231 under Python semantics): an
integer (or boolean) element is range-checked and, in range, deleted and
counted on status 204; a non-integer number is skipped when out of range
but raises at the list indexing when in range; any other element raises
at the range comparison.  A raise ends the loop at that element. -/
def poll_delete_py (batch : List Email) (delOk : String → Bool) :
    List PyVal → List String → Nat → PyLoopResult
  | [], att, del => ⟨att, del, false⟩
  | .pyInt n :: rest, att, del =>
    if n < 0 ∨ (batch.length : Int) ≤ n then
      poll_delete_py batch delOk rest att del
    else
      match batch.get? n.toNat with
      | some e =>
        if delOk e.id then
          poll_delete_py batch delOk rest (att ++ [e.id]) (del + 1)
        else
          poll_delete_py batch delOk rest (att ++ [e.id]) del
      | none => poll_delete_py batch delOk rest att del
  | .pyFloat q :: rest, att, del =>
    if q < 0 ∨ (batch.length : ℚ) ≤ q then
      poll_delete_py batch delOk rest att del
    else
      ⟨att, del, true⟩
  | .pyOther :: _, att, del => ⟨att, del, true⟩

/-- Entry of the deletion loop on a whole decoded response: a non-iterable
scalar raises before any iteration (no deletion at all); an iterable runs
the element loop. -/
def poll_delete_entry (batch : List Email) (delOk : String → Bool) :
    PyJson → PyLoopResult
  | .scalar => ⟨[], 0, true⟩
  | .arr xs => poll_delete_py batch delOk xs [] 0

/-- new_ids = current_ids - previous_ids of the polling variant. -/
def poll_new_ids (msgs : List Email) (prev : Finset String) : Finset String :=
  idsOf msgs \ prev

/-- emails_to_classify of the polling variant: the fetched emails whose id
is new, kept in fetch order, truncated to the first 10. -/
def poll_to_classify (msgs : List Email) (prev : Finset String) : List Email :=
  (msgs.filter (fun e => decide (e.id ∈ poll_new_ids msgs prev))).take 10

/-- The JSON body returned by process_junk_mail (message strings elided):
the plain-text bodies of the no-folder and no-email early returns, the
no-new-mail short-circuit body carrying deleted and kept, and the full
summary body carrying deleted, kept and already_seen.  kept is an integer
as in the source, where it is computed by subtraction. -/
inductive PollBody
  | noJunkFolder
  | noEmails
  | noNew (deleted : Nat) (kept : Nat)
  | summary (deleted : Nat) (kept : Int) (alreadySeen : Nat)
deriving DecidableEq

/-- Result of one polling run: the response body plus the effect trace. -/
structure PollRun where
  body : PollBody
  classifiedBatch : List Email
  deleteAttempts : List String
  savedSeen : Option (Finset String)
deriving DecidableEq

/-- The deleted count a polling response body reports (0 for the bodies
that carry no count). -/
def poll_deleted_count : PollBody → Nat
  | .noJunkFolder => 0
  | .noEmails => 0
  | .noNew d _ => d
  | .summary d _ _ => d

/-- lambda_function.process_junk_mail from the folder lookup on.  Mirrors
the source branch for branch: no junk folder, no fetched messages, the
no-new-ids short-circuit (which writes nothing), and the main path, which
classifies the first 10 new emails, runs the deletion loop, and writes
current_ids — the ids of ALL fetched messages — as the new seen-set. -/
def process_junk_mail (folderFound : Bool) (msgs : List Email)
    (prev : Finset String) (resp : ClassifierResult) (delOk : String → Bool) :
    PollRun :=
  if folderFound = false then ⟨.noJunkFolder, [], [], none⟩
  else if msgs.isEmpty then ⟨.noEmails, [], [], none⟩
  else if poll_new_ids msgs prev = ∅ then
    ⟨.noNew 0 msgs.length, [], [], none⟩
  else
    ⟨.summary
        (poll_delete_go (poll_to_classify msgs prev) delOk
          (get_deletion_decisions resp) [] 0).2
        (((poll_to_classify msgs prev).length : Int) -
          ((poll_delete_go (poll_to_classify msgs prev) delOk
            (get_deletion_decisions resp) [] 0).2 : Int))
        (msgs.length - (poll_new_ids msgs prev).card),
      poll_to_classify msgs prev,
      (poll_delete_go (poll_to_classify msgs prev) delOk
        (get_deletion_decisions resp) [] 0).1,
      some (idsOf msgs)⟩

/-- Loop state of the webhook per-message loop: the new_ids set, the
deleted count, the ids submitted to the classifier, and the ordered
deletion attempts. -/
structure HookState where
  newIds : Finset String
  deleted : Nat
  classifyCalls : List String
  deleteAttempts : List String
deriving DecidableEq

/-- The per-message loop of process_webhook_notification (webhook_handler
lines 186-222): every fetched id is first added to new_ids; already-seen
ids are then skipped; otherwise the message is classified, and on a delete
verdict a DELETE is issued — status 204 increments the count, any other
status re-adds the id to new_ids (a no-op, it is already there). -/
def hook_loop (prev : Finset String) (cresp : String → Option String)
    (delOk : String → Bool) : List Email → HookState → HookState
  | [], st => st
  | msg :: rest, st =>
    if msg.id ∈ prev then
      hook_loop prev cresp delOk rest
        ⟨insert msg.id st.newIds, st.deleted, st.classifyCalls, st.deleteAttempts⟩
    else if get_deletion_decision (cresp msg.id) then
      if delOk msg.id then
        hook_loop prev cresp delOk rest
          ⟨insert msg.id st.newIds, st.deleted + 1,
            st.classifyCalls ++ [msg.id], st.deleteAttempts ++ [msg.id]⟩
      else
        hook_loop prev cresp delOk rest
          ⟨insert msg.id (insert msg.id st.newIds), st.deleted,
            st.classifyCalls ++ [msg.id], st.deleteAttempts ++ [msg.id]⟩
    else
      hook_loop prev cresp delOk rest
        ⟨insert msg.id st.newIds, st.deleted,
          st.classifyCalls ++ [msg.id], st.deleteAttempts⟩

/-- Result of one webhook pipeline invocation: the returned counts plus
the effect trace. -/
structure HookRun where
  processed : Nat
  deleted : Nat
  classifyCalls : List String
  deleteAttempts : List String
  savedSeen : Option (Finset String)
deriving DecidableEq

/-- The zero result of the early returns ({"processed": 0, "deleted": 0}),
reached before any classification, deletion or store write. -/
def zeroHookRun : HookRun := ⟨0, 0, [], [], none⟩

/-- webhook_handler.process_webhook_notification: returns the zero result
when the notification resource is missing or empty, when no junk folder is
found, or when the fetch returns nothing; otherwise runs the per-message
loop, writes previous_ids union new_ids, and reports
processed = |new_ids - previous_ids| and the deleted count. -/
def process_webhook_notification (resource : Option String)
    (folderFound : Bool) (msgs : List Email) (prev : Finset String)
    (cresp : String → Option String) (delOk : String → Bool) : HookRun :=
  match resource with
  | none => zeroHookRun
  | some r =>
    if r.isEmpty then zeroHookRun
    else if folderFound = false then zeroHookRun
    else if msgs.isEmpty then zeroHookRun
    else
      ⟨((hook_loop prev cresp delOk msgs ⟨∅, 0, [], []⟩).newIds \ prev).card,
        (hook_loop prev cresp delOk msgs ⟨∅, 0, [], []⟩).deleted,
        (hook_loop prev cresp delOk msgs ⟨∅, 0, [], []⟩).classifyCalls,
        (hook_loop prev cresp delOk msgs ⟨∅, 0, [], []⟩).deleteAttempts,
        some (prev ∪ (hook_loop prev cresp delOk msgs ⟨∅, 0, [], []⟩).newIds)⟩

/-- One notification object of the webhook request body: its changeType
and its resource string. -/
structure Graph_Notice where
  changeType : String
  resource : Option String
deriving DecidableEq

/-- The request body as the dispatcher sees it: absent (event has no body,
json.loads of the empty-object default), invalid JSON (json.loads raises),
or a parsed value array of notification objects. -/
inductive ReqBody
  | absent
  | invalid
  | notifs (xs : List Graph_Notice)
deriving DecidableEq

/-- The dispatcher response body (message strings elided): the plain-text
validation token echo, the no-notifications message, the aggregated
summary, or the error object of the except branch. -/
inductive RespBody
  | text (tok : String)
  | noNotifs
  | summary (processed : Nat) (deleted : Nat)
  | errorBody
deriving DecidableEq

/-- The structured response of the dispatcher: HTTP status, whether the
plain-text content type header was set, and the body. -/
structure HandlerResponse where
  statusCode : Nat
  plainTextContentType : Bool
  body : RespBody
deriving DecidableEq

/-- The dispatcher loop over notifications: each notification whose
changeType is the string created invokes the pipeline with the current
store value; the store value written by that run (if any) is what the next
invocation loads.  Accumulates the processed and deleted totals and the
list of pipeline invocations. -/
def dispatch_go (folderFound : Bool) (msgs : List Email)
    (cresp : String → Option String) (delOk : String → Bool) :
    List Graph_Notice → Nat → Nat → List HookRun → Finset String →
    Nat × Nat × List HookRun
  | [], p, d, runs, _ => (p, d, runs)
  | n :: rest, p, d, runs, store =>
    if n.changeType = "created" then
      dispatch_go folderFound msgs cresp delOk rest
        (p + (process_webhook_notification n.resource folderFound msgs
          store cresp delOk).processed)
        (d + (process_webhook_notification n.resource folderFound msgs
          store cresp delOk).deleted)
        (runs ++ [process_webhook_notification n.resource folderFound msgs
          store cresp delOk])
        (match (process_webhook_notification n.resource folderFound msgs
          store cresp delOk).savedSeen with
          | some s => s
          | none => store)
    else
      dispatch_go folderFound msgs cresp delOk rest p d runs store

/-- webhook_handler.lambda_handler: if the query string carries a
validationToken key, immediately return 200 text/plain with the token as
the body — before the request body is even parsed; otherwise parse the
body and process the created-notifications, or report no notifications /
the error response.  The second component is the list of pipeline
invocations performed (empty means no authentication, fetch,
classification, deletion or store write happened). -/
def lambda_handler (query : Option (List (String × String)))
    (body : ReqBody) (folderFound : Bool) (msgs : List Email)
    (cresp : String → Option String) (delOk : String → Bool)
    (store0 : Finset String) : HandlerResponse × List HookRun :=
  match (query.getD []).lookup "validationToken" with
  | some tok => (⟨200, true, .text tok⟩, [])
  | none =>
    match body with
    | .invalid => (⟨500, false, .errorBody⟩, [])
    | .absent => (⟨200, false, .noNotifs⟩, [])
    | .notifs [] => (⟨200, false, .noNotifs⟩, [])
    | .notifs (n :: rest) =>
      match dispatch_go folderFound msgs cresp delOk (n :: rest) 0 0 [] store0 with
      | (p, d, runs) => (⟨200, false, .summary p d⟩, runs)

/-! ### Helper lemmas about idsOf -/

theorem mem_foldl_insert (l : List Email) (acc : Finset String) (x : String) :
    x ∈ l.foldl (fun s e => insert e.id s) acc ↔
      x ∈ acc ∨ ∃ m ∈ l, m.id = x := by
  induction l generalizing acc with
  | nil => simp
  | cons m rest ih =>
    simp only [List.foldl_cons, ih, Finset.mem_insert, List.mem_cons]
    constructor
    · rintro (⟨h | h⟩ | h)
      · exact Or.inr ⟨m, Or.inl rfl, h.symm⟩
      · exact Or.inl h
      · rcases h with ⟨m1, h1, h2⟩
        exact Or.inr ⟨m1, Or.inr h1, h2⟩
    · rintro (h | ⟨m1, h1 | h1, h2⟩)
      · exact Or.inl (Or.inr h)
      · subst h1
        exact Or.inl (Or.inl h2.symm)
      · exact Or.inr ⟨m1, h1, h2⟩

theorem mem_idsOf (msgs : List Email) (x : String) :
    x ∈ idsOf msgs ↔ ∃ m ∈ msgs, m.id = x := by
  simp [idsOf, mem_foldl_insert]

theorem idsOf_mem_of_mem (msgs : List Email) (m : Email) (h : m ∈ msgs) :
    m.id ∈ idsOf msgs :=
  (mem_idsOf msgs m.id).2 ⟨m, h, rfl⟩

/-! ### Helper lemmas about the polling deletion loop -/

theorem poll_go_att_indep (batch : List Email) (d1 d2 : String → Bool)
    (idxs : List Int) :
    ∀ att del1 del2,
      (poll_delete_go batch d1 idxs att del1).1 =
        (poll_delete_go batch d2 idxs att del2).1 := by
  induction idxs with
  | nil => intro att del1 del2; rfl
  | cons i rest ih =>
    intro att del1 del2
    by_cases h : i < 0 ∨ (batch.length : Int) ≤ i
    · simp only [poll_delete_go, if_pos h]
      exact ih att del1 del2
    · simp only [poll_delete_go, if_neg h]
      cases hg : batch.get? i.toNat with
      | none => exact ih att del1 del2
      | some e =>
        by_cases h1 : d1 e.id <;> by_cases h2 : d2 e.id <;>
          simp only [h1, h2, if_pos, if_neg, Bool.false_eq_true, ite_true, ite_false] <;>
          exact ih _ _ _

theorem poll_go_deleted_filter (batch : List Email) (d : String → Bool)
    (idxs : List Int) :
    ∀ att del, del = (att.filter d).length →
      (poll_delete_go batch d idxs att del).2 =
        ((poll_delete_go batch d idxs att del).1.filter d).length := by
  induction idxs with
  | nil => intro att del h; simpa [poll_delete_go] using h
  | cons i rest ih =>
    intro att del h
    by_cases hg : i < 0 ∨ (batch.length : Int) ≤ i
    · simp only [poll_delete_go, if_pos hg]
      exact ih att del h
    · simp only [poll_delete_go, if_neg hg]
      cases he : batch.get? i.toNat with
      | none => exact ih att del h
      | some e =>
        by_cases hd : d e.id
        · simp only [hd, ite_true]
          refine ih _ _ ?_
          simp [List.filter_append, hd, h]
        · simp only [hd, Bool.false_eq_true, ite_false]
          refine ih _ _ ?_
          simp [List.filter_append, hd, h]

theorem poll_go_drop_invalid (batch : List Email) (d : String → Bool)
    (idxs : List Int) :
    ∀ att del,
      poll_delete_go batch d idxs att del =
        poll_delete_go batch d (idxs.filter (idx_in_range batch.length)) att del := by
  induction idxs with
  | nil => intro att del; rfl
  | cons i rest ih =>
    intro att del
    by_cases h : i < 0 ∨ (batch.length : Int) ≤ i
    · have hf : idx_in_range batch.length i = false := by
        simp only [idx_in_range, Bool.and_eq_false_iff, decide_eq_false_iff_not, not_le, not_lt]
        omega
      simp only [poll_delete_go, if_pos h, List.filter_cons, hf, Bool.false_eq_true, ite_false]
      exact ih att del
    · have ht : idx_in_range batch.length i = true := by
        simp only [idx_in_range, Bool.and_eq_true, decide_eq_true_iff]
        omega
      simp only [List.filter_cons, ht, ite_true]
      simp only [poll_delete_go, if_neg h]
      cases he : batch.get? i.toNat with
      | none => exact ih att del
      | some e =>
        by_cases hd : d e.id <;> simp only [hd, Bool.false_eq_true, ite_true, ite_false] <;>
          exact ih _ _

theorem poll_go_att_length (batch : List Email) (d : String → Bool)
    (idxs : List Int) :
    ∀ att del,
      (poll_delete_go batch d idxs att del).1.length =
        att.length + (idxs.filter (idx_in_range batch.length)).length := by
  induction idxs with
  | nil => intro att del; simp [poll_delete_go]
  | cons i rest ih =>
    intro att del
    by_cases h : i < 0 ∨ (batch.length : Int) ≤ i
    · have hf : idx_in_range batch.length i = false := by
        simp only [idx_in_range, Bool.and_eq_false_iff, decide_eq_false_iff_not, not_le, not_lt]
        omega
      simp only [poll_delete_go, if_pos h, List.filter_cons, hf, Bool.false_eq_true, ite_false]
      exact ih att del
    · have ht : idx_in_range batch.length i = true := by
        simp only [idx_in_range, Bool.and_eq_true, decide_eq_true_iff]
        omega
      have hlt : i.toNat < batch.length := by omega
      have he : batch.get? i.toNat = some (batch.get ⟨i.toNat, hlt⟩) :=
        List.get?_eq_get hlt
      simp only [poll_delete_go, if_neg h, he, List.filter_cons, ht, ite_true]
      by_cases hd : d (batch.get ⟨i.toNat, hlt⟩).id <;>
        simp only [hd, Bool.false_eq_true, ite_true, ite_false] <;>
        rw [ih] <;> simp <;> omega

theorem poll_go_att_mem (batch : List Email) (d : String → Bool)
    (idxs : List Int) :
    ∀ att del x, x ∈ (poll_delete_go batch d idxs att del).1 →
      x ∈ att ∨ ∃ e ∈ batch, e.id = x := by
  induction idxs with
  | nil => intro att del x hx; exact Or.inl hx
  | cons i rest ih =>
    intro att del x hx
    by_cases h : i < 0 ∨ (batch.length : Int) ≤ i
    · simp only [poll_delete_go, if_pos h] at hx
      exact ih att del x hx
    · simp only [poll_delete_go, if_neg h] at hx
      cases he : batch.get? i.toNat with
      | none =>
        rw [he] at hx
        exact ih att del x hx
      | some e =>
        rw [he] at hx
        have hmem : e ∈ batch := List.get?_mem he
        by_cases hd : d e.id
        · simp only [hd, ite_true] at hx
          rcases ih _ _ _ hx with hin | hin
          · rcases List.mem_append.1 hin with h1 | h1
            · exact Or.inl h1
            · simp only [List.mem_singleton] at h1
              exact Or.inr ⟨e, hmem, h1.symm⟩
          · exact Or.inr hin
        · simp only [hd, Bool.false_eq_true, ite_false] at hx
          rcases ih _ _ _ hx with hin | hin
          · rcases List.mem_append.1 hin with h1 | h1
            · exact Or.inl h1
            · simp only [List.mem_singleton] at h1
              exact Or.inr ⟨e, hmem, h1.symm⟩
          · exact Or.inr hin

/-- Model soundness: on a response that decodes to an array of integers
(or booleans) the full-Python-semantics loop never raises and produces
exactly the attempts and count of poll_delete_go — so the run-level model
process_junk_mail with `.indices xs` is the program behavior on that
response class, and only wrong-shaped responses reach the raising or
fail-open paths of poll_delete_py. -/
theorem poll_delete_py_int (batch : List Email) (delOk : String → Bool)
    (xs : List Int) : ∀ att del,
    poll_delete_py batch delOk (xs.map PyVal.pyInt) att del =
      ⟨(poll_delete_go batch delOk xs att del).1,
        (poll_delete_go batch delOk xs att del).2, false⟩ := by
  induction xs with
  | nil => intro att del; rfl
  | cons n rest ih =>
    intro att del
    by_cases h : n < 0 ∨ (batch.length : Int) ≤ n
    · simp only [List.map_cons, poll_delete_py, poll_delete_go, if_pos h]
      exact ih att del
    · simp only [List.map_cons, poll_delete_py, poll_delete_go, if_neg h]
      cases hg : batch.get? n.toNat with
      | none => exact ih att del
      | some e =>
        by_cases hd : delOk e.id <;>
          simp only [hd, Bool.false_eq_true, ite_true, ite_false] <;>
          exact ih _ _

/-! ### Helper lemmas about the webhook per-message loop -/

theorem hook_loop_newIds_mono (prev : Finset String)
    (cresp : String → Option String) (delOk : String → Bool) (msgs : List Email) :
    ∀ st : HookState, st.newIds ⊆ (hook_loop prev cresp delOk msgs st).newIds := by
  induction msgs with
  | nil => intro st; exact Finset.Subset.refl _
  | cons msg rest ih =>
    intro st
    by_cases hp : msg.id ∈ prev
    · simp only [hook_loop, if_pos hp]
      refine Finset.Subset.trans (Finset.subset_insert msg.id st.newIds) ?_
      exact ih ⟨insert msg.id st.newIds, st.deleted, st.classifyCalls, st.deleteAttempts⟩
    · simp only [hook_loop, if_neg hp]
      by_cases hc : get_deletion_decision (cresp msg.id)
      · simp only [hc, ite_true]
        by_cases hd : delOk msg.id
        · simp only [hd, ite_true]
          refine Finset.Subset.trans (Finset.subset_insert msg.id st.newIds) ?_
          exact ih ⟨insert msg.id st.newIds, st.deleted + 1,
            st.classifyCalls ++ [msg.id], st.deleteAttempts ++ [msg.id]⟩
        · simp only [hd, Bool.false_eq_true, ite_false]
          refine Finset.Subset.trans (Finset.subset_insert msg.id st.newIds) ?_
          refine Finset.Subset.trans (Finset.subset_insert msg.id (insert msg.id st.newIds)) ?_
          exact ih ⟨insert msg.id (insert msg.id st.newIds), st.deleted,
            st.classifyCalls ++ [msg.id], st.deleteAttempts ++ [msg.id]⟩
      · simp only [hc, Bool.false_eq_true, ite_false]
        refine Finset.Subset.trans (Finset.subset_insert msg.id st.newIds) ?_
        exact ih ⟨insert msg.id st.newIds, st.deleted,
          st.classifyCalls ++ [msg.id], st.deleteAttempts⟩

theorem hook_loop_fetched_mem (prev : Finset String)
    (cresp : String → Option String) (delOk : String → Bool) (msgs : List Email) :
    ∀ st : HookState, ∀ m ∈ msgs,
      m.id ∈ (hook_loop prev cresp delOk msgs st).newIds := by
  induction msgs with
  | nil => intro st m hm; exact absurd hm (List.not_mem_nil m)
  | cons msg rest ih =>
    intro st m hm
    rcases List.mem_cons.1 hm with hm | hm
    · subst hm
      by_cases hp : m.id ∈ prev
      · simp only [hook_loop, if_pos hp]
        exact hook_loop_newIds_mono prev cresp delOk rest _ (Finset.mem_insert_self _ _)
      · simp only [hook_loop, if_neg hp]
        by_cases hc : get_deletion_decision (cresp m.id)
        · simp only [hc, ite_true]
          by_cases hd : delOk m.id
          · simp only [hd, ite_true]
            exact hook_loop_newIds_mono prev cresp delOk rest _ (Finset.mem_insert_self _ _)
          · simp only [hd, Bool.false_eq_true, ite_false]
            exact hook_loop_newIds_mono prev cresp delOk rest _ (Finset.mem_insert_self _ _)
        · simp only [hc, Bool.false_eq_true, ite_false]
          exact hook_loop_newIds_mono prev cresp delOk rest _ (Finset.mem_insert_self _ _)
    · by_cases hp : msg.id ∈ prev
      · simp only [hook_loop, if_pos hp]
        exact ih _ m hm
      · simp only [hook_loop, if_neg hp]
        by_cases hc : get_deletion_decision (cresp msg.id)
        · simp only [hc, ite_true]
          by_cases hd : delOk msg.id <;>
            simp only [hd, Bool.false_eq_true, ite_true, ite_false] <;>
            exact ih _ m hm
        · simp only [hc, Bool.false_eq_true, ite_false]
          exact ih _ m hm

theorem hook_loop_att_sub_newIds (prev : Finset String)
    (cresp : String → Option String) (delOk : String → Bool) (msgs : List Email) :
    ∀ st : HookState, (∀ x ∈ st.deleteAttempts, x ∈ st.newIds) →
      ∀ x ∈ (hook_loop prev cresp delOk msgs st).deleteAttempts,
        x ∈ (hook_loop prev cresp delOk msgs st).newIds := by
  induction msgs with
  | nil => intro st h x hx; exact h x hx
  | cons msg rest ih =>
    intro st h x hx
    by_cases hp : msg.id ∈ prev
    · simp only [hook_loop, if_pos hp] at hx ⊢
      refine ih _ ?_ x hx
      intro y hy
      exact Finset.mem_insert_of_mem (h y hy)
    · simp only [hook_loop, if_neg hp] at hx ⊢
      by_cases hc : get_deletion_decision (cresp msg.id)
      · simp only [hc, ite_true] at hx ⊢
        by_cases hd : delOk msg.id
        · simp only [hd, ite_true] at hx ⊢
          refine ih _ ?_ x hx
          intro y hy
          rcases List.mem_append.1 hy with hy | hy
          · exact Finset.mem_insert_of_mem (h y hy)
          · simp only [List.mem_singleton] at hy
            subst hy
            exact Finset.mem_insert_self _ _
        · simp only [hd, Bool.false_eq_true, ite_false] at hx ⊢
          refine ih _ ?_ x hx
          intro y hy
          rcases List.mem_append.1 hy with hy | hy
          · exact Finset.mem_insert_of_mem (Finset.mem_insert_of_mem (h y hy))
          · simp only [List.mem_singleton] at hy
            subst hy
            exact Finset.mem_insert_of_mem (Finset.mem_insert_self _ _)
      · simp only [hc, Bool.false_eq_true, ite_false] at hx ⊢
        refine ih _ ?_ x hx
        intro y hy
        exact Finset.mem_insert_of_mem (h y hy)

theorem hook_loop_indep_delOk (prev : Finset String)
    (cresp : String → Option String) (d1 d2 : String → Bool) (msgs : List Email) :
    ∀ (N : Finset String) (cls att : List String) (del1 del2 : Nat),
      (hook_loop prev cresp d1 msgs ⟨N, del1, cls, att⟩).newIds =
        (hook_loop prev cresp d2 msgs ⟨N, del2, cls, att⟩).newIds ∧
      (hook_loop prev cresp d1 msgs ⟨N, del1, cls, att⟩).classifyCalls =
        (hook_loop prev cresp d2 msgs ⟨N, del2, cls, att⟩).classifyCalls ∧
      (hook_loop prev cresp d1 msgs ⟨N, del1, cls, att⟩).deleteAttempts =
        (hook_loop prev cresp d2 msgs ⟨N, del2, cls, att⟩).deleteAttempts := by
  induction msgs with
  | nil => intro N cls att del1 del2; exact ⟨rfl, rfl, rfl⟩
  | cons msg rest ih =>
    intro N cls att del1 del2
    by_cases hp : msg.id ∈ prev
    · simp only [hook_loop, if_pos hp]
      exact ih _ _ _ _ _
    · simp only [hook_loop, if_neg hp]
      by_cases hc : get_deletion_decision (cresp msg.id)
      · simp only [hc, ite_true]
        by_cases hd1 : d1 msg.id <;> by_cases hd2 : d2 msg.id <;>
          simp only [hd1, hd2, Bool.false_eq_true, ite_true, ite_false,
            Finset.insert_idem] <;>
          exact ih _ _ _ _ _
      · simp only [hc, Bool.false_eq_true, ite_false]
        exact ih _ _ _ _ _

theorem hook_loop_deleted_filter (prev : Finset String)
    (cresp : String → Option String) (delOk : String → Bool) (msgs : List Email) :
    ∀ (N : Finset String) (cls att : List String) (del : Nat),
      del = (att.filter delOk).length →
      (hook_loop prev cresp delOk msgs ⟨N, del, cls, att⟩).deleted =
        ((hook_loop prev cresp delOk msgs ⟨N, del, cls, att⟩).deleteAttempts.filter
          delOk).length := by
  induction msgs with
  | nil => intro N cls att del h; exact h
  | cons msg rest ih =>
    intro N cls att del h
    by_cases hp : msg.id ∈ prev
    · simp only [hook_loop, if_pos hp]
      exact ih _ _ _ _ h
    · simp only [hook_loop, if_neg hp]
      by_cases hc : get_deletion_decision (cresp msg.id)
      · simp only [hc, ite_true]
        by_cases hd : delOk msg.id
        · simp only [hd, ite_true]
          refine ih _ _ _ _ ?_
          simp [List.filter_append, hd, h]
        · simp only [hd, Bool.false_eq_true, ite_false]
          refine ih _ _ _ _ ?_
          simp [List.filter_append, hd, h]
      · simp only [hc, Bool.false_eq_true, ite_false]
        exact ih _ _ _ _ h

theorem hook_loop_all_seen (prev : Finset String)
    (cresp : String → Option String) (delOk : String → Bool) (msgs : List Email)
    (hall : ∀ m ∈ msgs, m.id ∈ prev) :
    ∀ st : HookState,
      (hook_loop prev cresp delOk msgs st).deleted = st.deleted ∧
      (hook_loop prev cresp delOk msgs st).classifyCalls = st.classifyCalls ∧
      (hook_loop prev cresp delOk msgs st).deleteAttempts = st.deleteAttempts ∧
      (hook_loop prev cresp delOk msgs st).newIds ⊆ st.newIds ∪ prev := by
  induction msgs with
  | nil =>
    intro st
    exact ⟨rfl, rfl, rfl, Finset.subset_union_left⟩
  | cons msg rest ih =>
    intro st
    have hmsg : msg.id ∈ prev := hall msg (List.mem_cons_self msg rest)
    have hrest : ∀ m ∈ rest, m.id ∈ prev := fun m hm =>
      hall m (List.mem_cons_of_mem msg hm)
    simp only [hook_loop, if_pos hmsg]
    rcases ih hrest ⟨insert msg.id st.newIds, st.deleted, st.classifyCalls,
      st.deleteAttempts⟩ with ⟨h1, h2, h3, h4⟩
    refine ⟨h1, h2, h3, h4.trans ?_⟩
    intro x hx
    rcases Finset.mem_union.1 hx with hx | hx
    · rcases Finset.mem_insert.1 hx with hx | hx
      · subst hx
        exact Finset.mem_union_right _ hmsg
      · exact Finset.mem_union_left _ hx
    · exact Finset.mem_union_right _ hx

/-! ### Branch-analysis helpers for the two pipelines -/

theorem poll_savedSeen_eq (folderFound : Bool) (msgs : List Email)
    (prev : Finset String) (resp : ClassifierResult) (delOk : String → Bool)
    (s : Finset String)
    (h : (process_junk_mail folderFound msgs prev resp delOk).savedSeen = some s) :
    s = idsOf msgs := by
  unfold process_junk_mail at h
  split at h
  · exact absurd h (by simp)
  · split at h
    · exact absurd h (by simp)
    · split at h
      · exact absurd h (by simp)
      · simp only [Option.some.injEq] at h
        exact h.symm

theorem hook_savedSeen_eq (resource : Option String) (folderFound : Bool)
    (msgs : List Email) (prev : Finset String) (cresp : String → Option String)
    (delOk : String → Bool) (t : Finset String)
    (h : (process_webhook_notification resource folderFound msgs prev cresp
      delOk).savedSeen = some t) :
    t = prev ∪ (hook_loop prev cresp delOk msgs ⟨∅, 0, [], []⟩).newIds := by
  unfold process_webhook_notification at h
  cases resource with
  | none => exact absurd h (by simp [zeroHookRun])
  | some r =>
    simp only at h
    split at h
    · exact absurd h (by simp [zeroHookRun])
    · split at h
      · exact absurd h (by simp [zeroHookRun])
      · split at h
        · exact absurd h (by simp [zeroHookRun])
        · simp only [Option.some.injEq] at h
          exact h.symm

theorem poll_run_cases (folderFound : Bool) (msgs : List Email)
    (prev : Finset String) (resp : ClassifierResult) (delOk : String → Bool) :
    process_junk_mail folderFound msgs prev resp delOk =
        ⟨.noJunkFolder, [], [], none⟩ ∨
    process_junk_mail folderFound msgs prev resp delOk =
        ⟨.noEmails, [], [], none⟩ ∨
    process_junk_mail folderFound msgs prev resp delOk =
        ⟨.noNew 0 msgs.length, [], [], none⟩ ∨
    process_junk_mail folderFound msgs prev resp delOk =
        ⟨.summary
            (poll_delete_go (poll_to_classify msgs prev) delOk
              (get_deletion_decisions resp) [] 0).2
            (((poll_to_classify msgs prev).length : Int) -
              ((poll_delete_go (poll_to_classify msgs prev) delOk
                (get_deletion_decisions resp) [] 0).2 : Int))
            (msgs.length - (poll_new_ids msgs prev).card),
          poll_to_classify msgs prev,
          (poll_delete_go (poll_to_classify msgs prev) delOk
            (get_deletion_decisions resp) [] 0).1,
          some (idsOf msgs)⟩ := by
  unfold process_junk_mail
  split
  · exact Or.inl rfl
  · split
    · exact Or.inr (Or.inl rfl)
    · split
      · exact Or.inr (Or.inr (Or.inl rfl))
      · exact Or.inr (Or.inr (Or.inr rfl))

theorem hook_run_cases (resource : Option String) (folderFound : Bool)
    (msgs : List Email) (prev : Finset String) (cresp : String → Option String)
    (delOk : String → Bool) :
    process_webhook_notification resource folderFound msgs prev cresp delOk =
        zeroHookRun ∨
    process_webhook_notification resource folderFound msgs prev cresp delOk =
        ⟨((hook_loop prev cresp delOk msgs ⟨∅, 0, [], []⟩).newIds \ prev).card,
          (hook_loop prev cresp delOk msgs ⟨∅, 0, [], []⟩).deleted,
          (hook_loop prev cresp delOk msgs ⟨∅, 0, [], []⟩).classifyCalls,
          (hook_loop prev cresp delOk msgs ⟨∅, 0, [], []⟩).deleteAttempts,
          some (prev ∪ (hook_loop prev cresp delOk msgs ⟨∅, 0, [], []⟩).newIds)⟩ := by
  unfold process_webhook_notification
  cases resource with
  | none => exact Or.inl rfl
  | some r =>
    simp only
    split
    · exact Or.inl rfl
    · split
      · exact Or.inl rfl
      · split
        · exact Or.inl rfl
        · exact Or.inr rfl

/-! ### Claim theorems -/

/-- C1 counterexample: with 11 fresh messages and an empty seen-set the
polling run classifies only the first 10, the message with id 10 is
fetched but unclassified — yet its id IS in the persisted seen-set,
contradicting the claim that fetched-but-unclassified ids are excluded. -/
theorem C1_counterexample :
    ((process_junk_mail true ((List.range 11).map (fun i => mkEmail (toString i)))
        ∅ (.indices []) (fun _ => true)).classifiedBatch.length = 10) ∧
    (∀ e ∈ (process_junk_mail true ((List.range 11).map (fun i => mkEmail (toString i)))
        ∅ (.indices []) (fun _ => true)).classifiedBatch, e.id ≠ "10") ∧
    "10" ∈ ((process_junk_mail true ((List.range 11).map (fun i => mkEmail (toString i)))
        ∅ (.indices []) (fun _ => true)).savedSeen.getD ∅) := by
  decide

/-- C1 (amended): whenever a run reaches its seen-set write, the persisted
set includes the id of EVERY fetched message — the classified batch
(regardless of verdict or deletion outcome) and also the
fetched-but-unclassified messages beyond the classify limit. -/
theorem C1_saved_includes_all_fetched (folderFound : Bool) (msgs : List Email)
    (prev : Finset String) (resp : ClassifierResult)
    (cresp : String → Option String) (r : Option String)
    (d1 d2 : String → Bool) (s t : Finset String)
    (h1 : (process_junk_mail folderFound msgs prev resp d1).savedSeen = some s)
    (h2 : (process_webhook_notification r folderFound msgs prev cresp
      d2).savedSeen = some t) :
    (∀ m ∈ msgs, m.id ∈ s) ∧ (∀ m ∈ msgs, m.id ∈ t) ∧
    (∀ e ∈ (process_junk_mail folderFound msgs prev resp d1).classifiedBatch,
      e.id ∈ s) := by
  have hs : s = idsOf msgs := poll_savedSeen_eq _ _ _ _ _ _ h1
  have ht : t = prev ∪ (hook_loop prev cresp d2 msgs ⟨∅, 0, [], []⟩).newIds :=
    hook_savedSeen_eq _ _ _ _ _ _ _ h2
  subst hs
  subst ht
  refine ⟨fun m hm => idsOf_mem_of_mem msgs m hm, ?_, ?_⟩
  · intro m hm
    exact Finset.mem_union_right _ (hook_loop_fetched_mem _ _ _ msgs _ m hm)
  · intro e he
    rcases poll_run_cases folderFound msgs prev resp d1 with hc | hc | hc | hc <;>
      rw [hc] at he
    · exact absurd he (List.not_mem_nil e)
    · exact absurd he (List.not_mem_nil e)
    · exact absurd he (List.not_mem_nil e)
    · have : e ∈ msgs := by
        have h1 : e ∈ (msgs.filter (fun e => decide (e.id ∈ poll_new_ids msgs prev))) :=
          List.mem_of_mem_take he
        exact List.mem_of_mem_filter h1
      exact idsOf_mem_of_mem msgs e this

/-- C1 witness: a concrete two-message run in which both pipelines reach
their seen-set write, instantiating the amended theorem. -/
theorem C1_witness :
    "b" ∈ (insert "b" (insert "a" (∅ : Finset String))) ∧
    "a" ∈ (insert "b" (insert "a" (∅ : Finset String))) :=
  ⟨(C1_saved_includes_all_fetched true [mkEmail "a", mkEmail "b"] ∅ (.indices [])
      (fun _ => some "0") (some "x") (fun _ => true) (fun _ => true)
      (insert "b" (insert "a" ∅)) (insert "b" (insert "a" ∅))
      (by rfl) (by rfl)).1 (mkEmail "b") (by decide),
    (C1_saved_includes_all_fetched true [mkEmail "a", mkEmail "b"] ∅ (.indices [])
      (fun _ => some "0") (some "x") (fun _ => true) (fun _ => true)
      (insert "b" (insert "a" ∅)) (insert "b" (insert "a" ∅))
      (by rfl) (by rfl)).2.1 (mkEmail "a") (by decide)⟩

/-- C2 counterexample: malformed responses that parse as valid JSON of
the wrong shape are NOT resolved to keep.  In the polling loop the
response [true] — decoded to the array [pyInt 1], because a Python bool
is an int — deletes the SECOND message of a two-message batch and
completes normally, and the response [0, then a string] deletes the first
message before its TypeError aborts the run; and the webhook protocol
demands a single character 0 or 1, so the response text 1x is malformed —
yet the code takes its first character and resolves it to a delete
verdict, issuing a deletion attempt and counting the deletion when the
DELETE succeeds. -/
theorem C2_counterexample :
    poll_delete_entry [mkEmail "a", mkEmail "b"] (fun _ => true)
        (.arr [.pyInt 1]) = ⟨["b"], 1, false⟩ ∧
    poll_delete_entry [mkEmail "a"] (fun _ => true)
        (.arr [.pyInt 0, .pyOther]) = ⟨["a"], 1, true⟩ ∧
    get_deletion_decision (some "1x") = true ∧
    (process_webhook_notification (some "r") true [mkEmail "a"] ∅
        (fun _ => some "1x") (fun _ => false)).deleteAttempts = ["a"] ∧
    (process_webhook_notification (some "r") true [mkEmail "a"] ∅
        (fun _ => some "1x") (fun _ => true)).deleted = 1 := by
  decide

/-- Verdict-free webhook loop helper: when every message in the batch gets
a keep verdict from the classifier, the loop issues no deletion attempt
and counts nothing deleted. -/
theorem hook_loop_no_verdict (prev : Finset String)
    (cresp : String → Option String) (delOk : String → Bool) (msgs : List Email)
    (hv : ∀ m ∈ msgs, get_deletion_decision (cresp m.id) = false) :
    ∀ st : HookState,
      (hook_loop prev cresp delOk msgs st).deleted = st.deleted ∧
      (hook_loop prev cresp delOk msgs st).deleteAttempts = st.deleteAttempts := by
  induction msgs with
  | nil => intro st; exact ⟨rfl, rfl⟩
  | cons msg rest ih =>
    intro st
    have hrest : ∀ m ∈ rest, get_deletion_decision (cresp m.id) = false :=
      fun m hm => hv m (List.mem_cons_of_mem msg hm)
    have hmsg : get_deletion_decision (cresp msg.id) = false :=
      hv msg (List.mem_cons_self msg rest)
    by_cases hp : msg.id ∈ prev
    · simp only [hook_loop, if_pos hp]
      exact ih hrest _
    · simp only [hook_loop, if_neg hp, hmsg, Bool.false_eq_true, ite_false]
      exact ih hrest _

/-- C2 (amended): the fail-safe default holds only for response TEXTS the
try block rejects, not for every malformed response.  An API error or a
response text that does not parse as JSON at all (empty, unparsable,
malformed text) resolves the polling batch to keep-all with zero
deletions, and a response parsing to a non-iterable scalar aborts the run
before any deletion is issued; but a wrong-shaped JSON array fails open
(see the counterexample).  The webhook pipeline resolves an error or
empty response to keep, and a malformed webhook response fails safe only
when its first stripped character is not the character 1. -/
theorem C2_fail_safe (folderFound : Bool) (msgs : List Email)
    (batch : List Email) (prev : Finset String) (d : String → Bool)
    (r : Option String) (cresp : String → Option String) (s0 : String)
    (hresp : ∀ idStr, cresp idStr = none ∨ cresp idStr = some "")
    (hs0 : ¬ (stripped s0).head? = some '1') :
    (process_junk_mail folderFound msgs prev .err d).deleteAttempts = [] ∧
    poll_deleted_count (process_junk_mail folderFound msgs prev .err d).body = 0 ∧
    poll_delete_entry batch d .scalar = ⟨[], 0, true⟩ ∧
    (process_webhook_notification r folderFound msgs prev cresp d).deleteAttempts
      = [] ∧
    (process_webhook_notification r folderFound msgs prev cresp d).deleted = 0 ∧
    get_deletion_decision none = false ∧
    get_deletion_decision (some s0) = false := by
  have hv : ∀ m : Email, get_deletion_decision (cresp m.id) = false := by
    intro m
    rcases hresp m.id with h | h <;> rw [h] <;> rfl
  have hs0f : get_deletion_decision (some s0) = false := by
    simp only [get_deletion_decision]
    cases hc : stripped s0 with
    | nil => rfl
    | cons c cs =>
      rw [hc] at hs0
      simp only [List.head?_cons, Option.some.injEq] at hs0
      simp [hs0]
  refine ⟨?_, ?_, rfl, ?_, ?_, rfl, hs0f⟩
  · rcases poll_run_cases folderFound msgs prev .err d with hc | hc | hc | hc <;>
      (rw [hc]; try rfl)
  · rcases poll_run_cases folderFound msgs prev .err d with hc | hc | hc | hc <;>
      (rw [hc]; try rfl)
  · rcases hook_run_cases r folderFound msgs prev cresp d with hc | hc <;> rw [hc]
    · rfl
    · exact (hook_loop_no_verdict prev cresp d msgs (fun m _ => hv m) _).2
  · rcases hook_run_cases r folderFound msgs prev cresp d with hc | hc <;> rw [hc]
    · rfl
    · exact (hook_loop_no_verdict prev cresp d msgs (fun m _ => hv m) _).1

/-- C2 witness: a concrete run with an erroring classifier (both
variants), a scalar response aborting with no deletion, and the
single-character keep response, instantiating the amended theorem. -/
theorem C2_witness :
    (process_junk_mail true [mkEmail "a"] ∅ .err (fun _ => true)).deleteAttempts
      = [] ∧
    poll_deleted_count (process_junk_mail true [mkEmail "a"] ∅ .err
      (fun _ => true)).body = 0 ∧
    poll_delete_entry [mkEmail "a"] (fun _ => true) .scalar = ⟨[], 0, true⟩ ∧
    (process_webhook_notification (some "r") true [mkEmail "a"] ∅
      (fun _ => none) (fun _ => true)).deleteAttempts = [] ∧
    (process_webhook_notification (some "r") true [mkEmail "a"] ∅
      (fun _ => none) (fun _ => true)).deleted = 0 ∧
    get_deletion_decision none = false ∧
    get_deletion_decision (some "0") = false :=
  C2_fail_safe true [mkEmail "a"] [mkEmail "a"] ∅ (fun _ => true) (some "r")
    (fun _ => none) "0" (fun _ => Or.inl rfl) (by decide)

/-- C3 counterexample: the polling variant OVERWRITES the seen-set with the
currently fetched ids — a previously seen id that is no longer in the
fetch window (here the id old) is dropped from the persisted set, so the
persisted set is not a superset of the loaded one. -/
theorem C3_counterexample :
    (process_junk_mail true [mkEmail "a"] (insert "old" ∅) (.indices [])
        (fun _ => true)).savedSeen = some (insert "a" ∅) ∧
    "old" ∈ (insert "old" (∅ : Finset String)) ∧
    "old" ∉ (insert "a" (∅ : Finset String)) := by
  refine ⟨by rfl, by decide, by decide⟩

/-- C3 (amended): the superset invariant holds for the webhook pipeline —
its persisted seen-set is the loaded set union the fetched ids — but the
polling pipeline either writes nothing or persists EXACTLY the set of
currently fetched ids, which can drop previously loaded ids that left the
fetch window. -/
theorem C3_saved_monotonic (folderFound : Bool) (msgs : List Email)
    (prev : Finset String) (resp : ClassifierResult)
    (cresp : String → Option String) (r : Option String)
    (d1 d2 : String → Bool) (t : Finset String)
    (h : (process_webhook_notification r folderFound msgs prev cresp
      d2).savedSeen = some t) :
    prev ⊆ t ∧
    ((process_junk_mail folderFound msgs prev resp d1).savedSeen = none ∨
      (process_junk_mail folderFound msgs prev resp d1).savedSeen =
        some (idsOf msgs)) := by
  have ht : t = prev ∪ (hook_loop prev cresp d2 msgs ⟨∅, 0, [], []⟩).newIds :=
    hook_savedSeen_eq _ _ _ _ _ _ _ h
  subst ht
  refine ⟨Finset.subset_union_left, ?_⟩
  rcases poll_run_cases folderFound msgs prev resp d1 with hc | hc | hc | hc <;>
    rw [hc]
  · exact Or.inl rfl
  · exact Or.inl rfl
  · exact Or.inl rfl
  · exact Or.inr rfl

/-- C3 witness: a concrete webhook run reaching its seen-set write,
instantiating the amended theorem. -/
theorem C3_witness :
    (insert "old" (∅ : Finset String)) ⊆
      (insert "old" (∅ : Finset String) ∪ insert "a" ∅) ∧
    ((process_junk_mail true [mkEmail "a"] (insert "old" ∅) (.indices [])
        (fun _ => true)).savedSeen = none ∨
      (process_junk_mail true [mkEmail "a"] (insert "old" ∅) (.indices [])
        (fun _ => true)).savedSeen = some (idsOf [mkEmail "a"])) :=
  C3_saved_monotonic true [mkEmail "a"] (insert "old" ∅) (.indices [])
    (fun _ => some "0") (some "r") (fun _ => true) (fun _ => true)
    (insert "old" ∅ ∪ insert "a" ∅) (by rfl)

/-- C4 counterexample: the deletion loop does NOT discard duplicate index
references — the classifier response with the index 0 twice issues two
deletion attempts for the same single message, and when the DELETE call
reports success both times the run counts the one message as deleted
twice (the reported kept count even becomes the integer -1). -/
theorem C4_counterexample :
    (process_junk_mail true [mkEmail "a"] ∅ (.indices [0, 0])
        (fun _ => true)).deleteAttempts = ["a", "a"] ∧
    (process_junk_mail true [mkEmail "a"] ∅ (.indices [0, 0])
        (fun _ => true)).body = .summary 2 (-1) 0 := by
  decide

/-- C4 (amended): each out-of-range index reference is discarded — the run
result is unchanged when out-of-range references are removed from the
classifier response, so they trigger no deletion and no error — but
duplicate in-range references are NOT discarded: in the deletion loop
every in-range occurrence, duplicates included, contributes exactly one
deletion attempt. -/
theorem C4_invalid_refs_discarded (folderFound : Bool) (msgs : List Email)
    (prev : Finset String) (d : String → Bool) (idxs : List Int) :
    process_junk_mail folderFound msgs prev (.indices idxs) d =
      process_junk_mail folderFound msgs prev
        (.indices (idxs.filter (idx_in_range (poll_to_classify msgs prev).length)))
        d ∧
    (poll_delete_go (poll_to_classify msgs prev) d idxs [] 0).1.length
      = (idxs.filter (idx_in_range (poll_to_classify msgs prev).length)).length := by
  constructor
  · unfold process_junk_mail
    by_cases hf : folderFound = false
    · simp only [if_pos hf]
    · simp only [if_neg hf]
      by_cases hm : msgs.isEmpty
      · simp only [if_pos hm]
      · simp only [if_neg hm]
        by_cases hn : poll_new_ids msgs prev = ∅
        · simp only [if_pos hn]
        · simp only [if_neg hn]
          rw [show get_deletion_decisions (.indices idxs) = idxs from rfl]
          rw [show get_deletion_decisions
            (.indices (idxs.filter
              (idx_in_range (poll_to_classify msgs prev).length)))
            = idxs.filter (idx_in_range (poll_to_classify msgs prev).length)
            from rfl]
          rw [← poll_go_drop_invalid]
  · rw [poll_go_att_length]
    simp

/-- C5: second-run idempotence.  If a first run of either pipeline reaches
its seen-set write, and a second run fetches only messages whose ids the
first run fetched, then the second run submits nothing to the classifier,
issues no deletion, and reports zero deleted (and, for the webhook
variant, zero processed). -/
theorem C5_idempotent_second_run (msgs1 msgs2 : List Email)
    (prev : Finset String) (resp1 resp2 : ClassifierResult)
    (cresp1 cresp2 : String → Option String) (d1 d2 : String → Bool)
    (r1 r2 : Option String) (s t : Finset String)
    (h1 : (process_junk_mail true msgs1 prev resp1 d1).savedSeen = some s)
    (h2 : ∀ m ∈ msgs2, ∃ m1 ∈ msgs1, m1.id = m.id)
    (h3 : (process_webhook_notification r1 true msgs1 prev cresp1
      d1).savedSeen = some t) :
    (process_junk_mail true msgs2 s resp2 d2).classifiedBatch = [] ∧
    (process_junk_mail true msgs2 s resp2 d2).deleteAttempts = [] ∧
    poll_deleted_count (process_junk_mail true msgs2 s resp2 d2).body = 0 ∧
    (process_webhook_notification r2 true msgs2 t cresp2 d2).classifyCalls
      = [] ∧
    (process_webhook_notification r2 true msgs2 t cresp2 d2).processed = 0 ∧
    (process_webhook_notification r2 true msgs2 t cresp2 d2).deleted = 0 := by
  have hs : s = idsOf msgs1 := poll_savedSeen_eq _ _ _ _ _ _ h1
  have ht : t = prev ∪ (hook_loop prev cresp1 d1 msgs1 ⟨∅, 0, [], []⟩).newIds :=
    hook_savedSeen_eq _ _ _ _ _ _ _ h3
  have hids2s : ∀ m ∈ msgs2, m.id ∈ s := by
    intro m hm
    rcases h2 m hm with ⟨m1, hm1, he⟩
    rw [hs, ← he]
    exact idsOf_mem_of_mem msgs1 m1 hm1
  have hids2t : ∀ m ∈ msgs2, m.id ∈ t := by
    intro m hm
    rcases h2 m hm with ⟨m1, hm1, he⟩
    rw [ht, ← he]
    exact Finset.mem_union_right _
      (hook_loop_fetched_mem prev cresp1 d1 msgs1 _ m1 hm1)
  have hempty : poll_new_ids msgs2 s = ∅ := by
    unfold poll_new_ids
    rw [Finset.sdiff_eq_empty_iff_subset]
    intro x hx
    rcases (mem_idsOf msgs2 x).1 hx with ⟨m, hm, he⟩
    rw [← he]
    exact hids2s m hm
  refine ⟨?_, ?_, ?_, ?_, ?_, ?_⟩
  · unfold process_junk_mail
    by_cases hm : msgs2.isEmpty <;> simp [hm, hempty]
  · unfold process_junk_mail
    by_cases hm : msgs2.isEmpty <;> simp [hm, hempty]
  · unfold process_junk_mail
    by_cases hm : msgs2.isEmpty <;> simp [hm, hempty, poll_deleted_count]
  · rcases hook_run_cases r2 true msgs2 t cresp2 d2 with hc | hc <;> rw [hc]
    · rfl
    · exact (hook_loop_all_seen t cresp2 d2 msgs2 hids2t _).2.1
  · rcases hook_run_cases r2 true msgs2 t cresp2 d2 with hc | hc <;> rw [hc]
    · rfl
    · show ((hook_loop t cresp2 d2 msgs2 ⟨∅, 0, [], []⟩).newIds \ t).card = 0
      rw [Finset.card_eq_zero, Finset.sdiff_eq_empty_iff_subset]
      have hsub := (hook_loop_all_seen t cresp2 d2 msgs2 hids2t
        ⟨∅, 0, [], []⟩).2.2.2
      refine hsub.trans ?_
      intro x hx
      rcases Finset.mem_union.1 hx with hx | hx
      · exact absurd hx (Finset.not_mem_empty x)
      · exact hx
  · rcases hook_run_cases r2 true msgs2 t cresp2 d2 with hc | hc <;> rw [hc]
    · rfl
    · exact (hook_loop_all_seen t cresp2 d2 msgs2 hids2t _).1

/-- C5 witness: concrete back-to-back runs — the first run sees one fresh
message and records it; the second run fetches the same message and
short-circuits with nothing classified, nothing deleted. -/
theorem C5_witness :
    (process_junk_mail true [mkEmail "a"] (insert "a" ∅) (.indices [])
      (fun _ => true)).classifiedBatch = [] ∧
    (process_junk_mail true [mkEmail "a"] (insert "a" ∅) (.indices [])
      (fun _ => true)).deleteAttempts = [] ∧
    poll_deleted_count (process_junk_mail true [mkEmail "a"] (insert "a" ∅)
      (.indices []) (fun _ => true)).body = 0 ∧
    (process_webhook_notification (some "r") true [mkEmail "a"]
      (∅ ∪ insert "a" ∅) (fun _ => some "1") (fun _ => true)).classifyCalls
      = [] ∧
    (process_webhook_notification (some "r") true [mkEmail "a"]
      (∅ ∪ insert "a" ∅) (fun _ => some "1") (fun _ => true)).processed = 0 ∧
    (process_webhook_notification (some "r") true [mkEmail "a"]
      (∅ ∪ insert "a" ∅) (fun _ => some "1") (fun _ => true)).deleted = 0 :=
  C5_idempotent_second_run [mkEmail "a"] [mkEmail "a"] ∅ (.indices [])
    (.indices []) (fun _ => some "0") (fun _ => some "1") (fun _ => true)
    (fun _ => true) (some "r") (some "r") (insert "a" ∅) (∅ ∪ insert "a" ∅)
    (by rfl) (fun m hm => ⟨m, hm, rfl⟩) (by rfl)

/-- C6: validation handshake priority.  Whenever the query string carries a
validationToken key, the dispatcher returns status 200 with the plain-text
content type and a body exactly equal to the token value, and invokes the
pipeline zero times — no authentication, fetch, classification, deletion
or seen-set write — even when the request also carries a notification
body. -/
theorem C6_validation_short_circuit (query : Option (List (String × String)))
    (body : ReqBody) (folderFound : Bool) (msgs : List Email)
    (cresp : String → Option String) (d : String → Bool)
    (store0 : Finset String) (tok : String)
    (h : (query.getD []).lookup "validationToken" = some tok) :
    (lambda_handler query body folderFound msgs cresp d store0).1 =
      ⟨200, true, .text tok⟩ ∧
    (lambda_handler query body folderFound msgs cresp d store0).2 = [] := by
  unfold lambda_handler
  rw [h]
  exact ⟨rfl, rfl⟩

/-- C6 witness: a concrete request carrying both the validation token
abc123 and a created-notification body still gets the bare token echo and
zero pipeline invocations. -/
theorem C6_witness :
    (lambda_handler (some [("validationToken", "abc123")])
      (.notifs [⟨"created", some "x"⟩]) true [mkEmail "a"]
      (fun _ => some "1") (fun _ => true) ∅).1 = ⟨200, true, .text "abc123"⟩ ∧
    (lambda_handler (some [("validationToken", "abc123")])
      (.notifs [⟨"created", some "x"⟩]) true [mkEmail "a"]
      (fun _ => some "1") (fun _ => true) ∅).2 = [] :=
  C6_validation_short_circuit (some [("validationToken", "abc123")])
    (.notifs [⟨"created", some "x"⟩]) true [mkEmail "a"]
    (fun _ => some "1") (fun _ => true) ∅ "abc123" (by rfl)

/-- C7: deletion isolation.  In both pipelines the list of deletion
attempts does not depend on the per-message DELETE outcomes — a failing
DELETE never prevents the remaining flagged messages from being attempted
and never aborts the run — and the reported deleted count is exactly the
number of attempts whose DELETE succeeded. -/
theorem C7_deletion_isolation (folderFound : Bool) (msgs : List Email)
    (prev : Finset String) (resp : ClassifierResult)
    (cresp : String → Option String) (r : Option String)
    (d1 d2 : String → Bool) :
    (process_junk_mail folderFound msgs prev resp d1).deleteAttempts =
      (process_junk_mail folderFound msgs prev resp d2).deleteAttempts ∧
    poll_deleted_count (process_junk_mail folderFound msgs prev resp d1).body =
      ((process_junk_mail folderFound msgs prev resp d1).deleteAttempts.filter
        d1).length ∧
    (process_webhook_notification r folderFound msgs prev cresp
        d1).deleteAttempts =
      (process_webhook_notification r folderFound msgs prev cresp
        d2).deleteAttempts ∧
    (process_webhook_notification r folderFound msgs prev cresp d1).deleted =
      ((process_webhook_notification r folderFound msgs prev cresp
        d1).deleteAttempts.filter d1).length := by
  refine ⟨?_, ?_, ?_, ?_⟩
  · unfold process_junk_mail
    by_cases hf : folderFound = false
    · simp only [if_pos hf]
    · simp only [if_neg hf]
      by_cases hm : msgs.isEmpty
      · simp only [if_pos hm]
      · simp only [if_neg hm]
        by_cases hn : poll_new_ids msgs prev = ∅
        · simp only [if_pos hn]
        · simp only [if_neg hn]
          exact poll_go_att_indep _ d1 d2 _ [] 0 0
  · rcases poll_run_cases folderFound msgs prev resp d1 with hc | hc | hc | hc <;>
      rw [hc]
    · rfl
    · rfl
    · rfl
    · exact poll_go_deleted_filter _ d1 _ [] 0 rfl
  · unfold process_webhook_notification
    cases r with
    | none => rfl
    | some rv =>
      simp only
      by_cases hr : rv.isEmpty
      · simp only [if_pos hr]
      · simp only [if_neg hr]
        by_cases hf : folderFound = false
        · simp only [if_pos hf]
        · simp only [if_neg hf]
          by_cases hm : msgs.isEmpty
          · simp only [if_pos hm]
          · simp only [if_neg hm]
            exact (hook_loop_indep_delOk prev cresp d1 d2 msgs ∅ [] [] 0 0).2.2
  · rcases hook_run_cases r folderFound msgs prev cresp d1 with hc | hc <;>
      rw [hc]
    · rfl
    · exact hook_loop_deleted_filter prev cresp d1 msgs ∅ [] [] 0 rfl

/-- C8: a message whose deletion attempt fails is still recorded.  In both
pipelines every attempted id (in particular one whose DELETE returned a
non-204 status) is contained in the persisted seen-set, and the persisted
seen-set value does not depend on the DELETE outcomes at all, so a failure
removes no id from it. -/
theorem C8_failed_delete_recorded (folderFound : Bool) (msgs : List Email)
    (prev : Finset String) (resp : ClassifierResult)
    (cresp : String → Option String) (r : Option String)
    (d d2 : String → Bool) (s t : Finset String)
    (h1 : (process_junk_mail folderFound msgs prev resp d).savedSeen = some s)
    (h2 : (process_webhook_notification r folderFound msgs prev cresp
      d).savedSeen = some t) :
    (∀ x ∈ (process_junk_mail folderFound msgs prev resp d).deleteAttempts,
      x ∈ s) ∧
    (∀ x ∈ (process_webhook_notification r folderFound msgs prev cresp
      d).deleteAttempts, x ∈ t) ∧
    (process_junk_mail folderFound msgs prev resp d).savedSeen =
      (process_junk_mail folderFound msgs prev resp d2).savedSeen ∧
    (process_webhook_notification r folderFound msgs prev cresp d).savedSeen =
      (process_webhook_notification r folderFound msgs prev cresp
        d2).savedSeen := by
  have hs : s = idsOf msgs := poll_savedSeen_eq _ _ _ _ _ _ h1
  have ht : t = prev ∪ (hook_loop prev cresp d msgs ⟨∅, 0, [], []⟩).newIds :=
    hook_savedSeen_eq _ _ _ _ _ _ _ h2
  refine ⟨?_, ?_, ?_, ?_⟩
  · intro x hx
    rcases poll_run_cases folderFound msgs prev resp d with hc | hc | hc | hc <;>
      rw [hc] at hx
    · exact absurd hx (List.not_mem_nil x)
    · exact absurd hx (List.not_mem_nil x)
    · exact absurd hx (List.not_mem_nil x)
    · rcases poll_go_att_mem _ d _ [] 0 x hx with hin | ⟨e, he, hex⟩
      · exact absurd hin (List.not_mem_nil x)
      · have hm : e ∈ msgs :=
          List.mem_of_mem_filter (List.mem_of_mem_take he)
        rw [hs, ← hex]
        exact idsOf_mem_of_mem msgs e hm
  · intro x hx
    rcases hook_run_cases r folderFound msgs prev cresp d with hc | hc <;>
      rw [hc] at hx
    · exact absurd hx (List.not_mem_nil x)
    · have := hook_loop_att_sub_newIds prev cresp d msgs ⟨∅, 0, [], []⟩
        (fun y hy => absurd hy (List.not_mem_nil y)) x hx
      rw [ht]
      exact Finset.mem_union_right _ this
  · unfold process_junk_mail
    by_cases hf : folderFound = false
    · simp only [if_pos hf]
    · simp only [if_neg hf]
      by_cases hm : msgs.isEmpty
      · simp only [if_pos hm]
      · simp only [if_neg hm]
        by_cases hn : poll_new_ids msgs prev = ∅ <;> simp [hn]
  · unfold process_webhook_notification
    cases r with
    | none => rfl
    | some rv =>
      simp only
      by_cases hr : rv.isEmpty
      · simp only [if_pos hr]
      · simp only [if_neg hr]
        by_cases hf : folderFound = false
        · simp only [if_pos hf]
        · simp only [if_neg hf]
          by_cases hm : msgs.isEmpty
          · simp only [if_pos hm]
          · simp only [if_neg hm]
            simp only [Option.some.injEq]
            rw [(hook_loop_indep_delOk prev cresp d d2 msgs ∅ [] [] 0 0).1]

/-- C8 witness: a concrete run of each pipeline in which the single flagged
message fails to delete — its id is nevertheless in the persisted set, and
the persisted set equals the one a fully succeeding run writes. -/
theorem C8_witness :
    "a" ∈ (insert "a" (∅ : Finset String)) ∧
    (process_junk_mail true [mkEmail "a"] ∅ (.indices [0])
        (fun _ => false)).savedSeen =
      (process_junk_mail true [mkEmail "a"] ∅ (.indices [0])
        (fun _ => true)).savedSeen ∧
    (process_webhook_notification (some "r") true [mkEmail "a"] ∅
        (fun _ => some "1") (fun _ => false)).savedSeen =
      (process_webhook_notification (some "r") true [mkEmail "a"] ∅
        (fun _ => some "1") (fun _ => true)).savedSeen :=
  ⟨(C8_failed_delete_recorded true [mkEmail "a"] ∅ (.indices [0])
      (fun _ => some "1") (some "r") (fun _ => false) (fun _ => true)
      (insert "a" ∅) (∅ ∪ insert "a" ∅) (by rfl) (by rfl)).1 "a" (by decide),
    (C8_failed_delete_recorded true [mkEmail "a"] ∅ (.indices [0])
      (fun _ => some "1") (some "r") (fun _ => false) (fun _ => true)
      (insert "a" ∅) (∅ ∪ insert "a" ∅) (by rfl) (by rfl)).2.2.1,
    (C8_failed_delete_recorded true [mkEmail "a"] ∅ (.indices [0])
      (fun _ => some "1") (some "r") (fun _ => false) (fun _ => true)
      (insert "a" ∅) (∅ ∪ insert "a" ∅) (by rfl) (by rfl)).2.2.2⟩

/-- C9 counterexample: neither variant reports a deleteFailed count.  A
webhook run whose single flagged message FAILS to delete returns exactly
the same processed/deleted pair as a run that kept the message, and a
polling run with a failed deletion returns exactly the same body as one
with no deletion verdict at all — so failed attempts are not reported
separately from succeeded deletions, and no fetched count is returned by
the webhook variant either. -/
theorem C9_counterexample :
    (process_webhook_notification (some "r") true [mkEmail "a"] ∅
        (fun _ => some "1") (fun _ => false)).processed =
      (process_webhook_notification (some "r") true [mkEmail "a"] ∅
        (fun _ => some "0") (fun _ => false)).processed ∧
    (process_webhook_notification (some "r") true [mkEmail "a"] ∅
        (fun _ => some "1") (fun _ => false)).deleted =
      (process_webhook_notification (some "r") true [mkEmail "a"] ∅
        (fun _ => some "0") (fun _ => false)).deleted ∧
    (process_webhook_notification (some "r") true [mkEmail "a"] ∅
        (fun _ => some "1") (fun _ => false)).deleteAttempts = ["a"] ∧
    (process_webhook_notification (some "r") true [mkEmail "a"] ∅
        (fun _ => some "0") (fun _ => false)).deleteAttempts = [] ∧
    (process_junk_mail true [mkEmail "a"] ∅ (.indices [0])
        (fun _ => false)).body =
      (process_junk_mail true [mkEmail "a"] ∅ (.indices [])
        (fun _ => true)).body ∧
    (process_junk_mail true [mkEmail "a"] ∅ (.indices [0])
        (fun _ => false)).deleteAttempts = ["a"] ∧
    (process_junk_mail true [mkEmail "a"] ∅ (.indices [])
        (fun _ => true)).deleteAttempts = [] := by
  decide

/-- C9 (amended): the counts each run actually reports.  A polling summary
body carries deleted = the number of succeeded deletion attempts, kept =
classified batch size minus deleted, and already_seen = fetched minus new;
the webhook result carries processed and deleted with deleted again
counting only succeeded attempts.  No separate deleteFailed count exists
in either result. -/
theorem C9_reported_counts (folderFound : Bool) (msgs : List Email)
    (prev : Finset String) (resp : ClassifierResult)
    (cresp : String → Option String) (r : Option String) (d : String → Bool)
    (dl : Nat) (kept : Int) (alr : Nat)
    (h : (process_junk_mail folderFound msgs prev resp d).body =
      .summary dl kept alr) :
    dl = ((process_junk_mail folderFound msgs prev resp d).deleteAttempts.filter
      d).length ∧
    kept = ((process_junk_mail folderFound msgs prev resp
      d).classifiedBatch.length : Int) - (dl : Int) ∧
    alr = msgs.length - (poll_new_ids msgs prev).card ∧
    (process_webhook_notification r folderFound msgs prev cresp d).deleted =
      ((process_webhook_notification r folderFound msgs prev cresp
        d).deleteAttempts.filter d).length := by
  rcases poll_run_cases folderFound msgs prev resp d with hc | hc | hc | hc <;>
    rw [hc] at h <;> rw [hc]
  · exact absurd h (by simp)
  · exact absurd h (by simp)
  · exact absurd h (by simp)
  · simp only [PollBody.summary.injEq] at h
    rcases h with ⟨hdl, hkept, halr⟩
    subst hdl
    subst hkept
    subst halr
    refine ⟨?_, rfl, rfl, ?_⟩
    · exact poll_go_deleted_filter _ d _ [] 0 rfl
    · rcases hook_run_cases r folderFound msgs prev cresp d with hh | hh <;>
        rw [hh]
      · rfl
      · exact hook_loop_deleted_filter prev cresp d msgs ∅ [] [] 0 rfl

/-- C9 witness: the amended theorem instantiated on a concrete run whose
single deletion attempt fails — the summary reports deleted 0, kept 1,
already_seen 0, and the webhook run of the same mailbox reports deleted
equal to its succeeded attempts. -/
theorem C9_witness :
    0 = ((process_junk_mail true [mkEmail "a"] ∅ (.indices [0])
      (fun _ => false)).deleteAttempts.filter (fun _ => false)).length ∧
    (1 : Int) = ((process_junk_mail true [mkEmail "a"] ∅ (.indices [0])
      (fun _ => false)).classifiedBatch.length : Int) - ((0 : Nat) : Int) ∧
    0 = [mkEmail "a"].length - (poll_new_ids [mkEmail "a"] ∅).card ∧
    (process_webhook_notification (some "r") true [mkEmail "a"] ∅
        (fun _ => some "1") (fun _ => false)).deleted =
      ((process_webhook_notification (some "r") true [mkEmail "a"] ∅
        (fun _ => some "1") (fun _ => false)).deleteAttempts.filter
        (fun _ => false)).length :=
  C9_reported_counts true [mkEmail "a"] ∅ (.indices [0]) (fun _ => some "1")
    (some "r") (fun _ => false) 0 1 0 (by decide)

/-- C10: the processing of a created notification does not depend on the
content of its resource field beyond presence — two notifications with any
two non-empty resource strings produce identical runs given the same
mailbox, seen-set, classifier and DELETE behaviour, while a missing or
empty resource short-circuits to the zero result with no effect. -/
theorem C10_resource_content_irrelevant (r1 r2 : String) (folderFound : Bool)
    (msgs : List Email) (prev : Finset String)
    (cresp : String → Option String) (d : String → Bool)
    (h1 : r1.isEmpty = false) (h2 : r2.isEmpty = false) :
    process_webhook_notification (some r1) folderFound msgs prev cresp d =
      process_webhook_notification (some r2) folderFound msgs prev cresp d ∧
    process_webhook_notification none folderFound msgs prev cresp d =
      zeroHookRun ∧
    process_webhook_notification (some "") folderFound msgs prev cresp d =
      zeroHookRun := by
  refine ⟨?_, rfl, ?_⟩
  · unfold process_webhook_notification
    simp only [h1, h2, Bool.false_eq_true, ite_false]
  · unfold process_webhook_notification
    simp only [String.isEmpty_iff]
    rfl

/-- C10 witness: two concrete non-empty resource strings produce the same
run. -/
theorem C10_witness :
    process_webhook_notification (some "A") true [mkEmail "a"] ∅
        (fun _ => some "1") (fun _ => true) =
      process_webhook_notification (some "B") true [mkEmail "a"] ∅
        (fun _ => some "1") (fun _ => true) ∧
    process_webhook_notification none true [mkEmail "a"] ∅
        (fun _ => some "1") (fun _ => true) = zeroHookRun ∧
    process_webhook_notification (some "") true [mkEmail "a"] ∅
        (fun _ => some "1") (fun _ => true) = zeroHookRun :=
  C10_resource_content_irrelevant "A" "B" true [mkEmail "a"] ∅
    (fun _ => some "1") (fun _ => true) (by decide) (by decide)
